import Mathlib

/-!
# Verification of the MAcc 2023 exit-survey ranking pipeline

A shallow embedding of `src/analyze_ranking.py`:

* `parse_columns` — the Column Classifier.  The Python code runs
  `re.search` with the pattern
  `.* - Ranks - (Most Beneficial|Neutral|Least Beneficial) - (.*) - Rank`
  over each column header.  The pattern is modelled here character by
  character on `List Char`, with Python's semantics: `search` picks the
  leftmost starting position at which a match exists, `.` matches any
  character except a newline, and the two greedy `.*` groups prefer the
  longest feasible match (so the match anchors at the last feasible
  ` - Ranks - ` occurrence reachable without crossing a newline, and the
  course group extends to the last feasible ` - Rank` occurrence).
  The pattern has no end anchor, so trailing text after ` - Rank` is
  allowed.

* `calculate_rankings` — the Rank Flattener.  Cell values are modelled as
  `Option Int` (`none` = missing/NaN, matching the `pd.notna` test; the
  numeric contents of non-missing cells only ever get compared, so `Int`
  stands in for the spreadsheet's numbers).  Python's stable ascending
  `list.sort(key=lambda x: x[1])` is modelled by a stable insertion sort
  (`insSortKey`); a stable ascending sort is uniquely determined by its
  specification, so any stable model computes the same list.

* the aggregation and reporting part of `main` — `groupby('Course')`
  sorts the group keys (pandas default `sort=True`); per group the code
  takes mean, count and sample standard deviation (`ddof=1`, `NaN` when
  the count is below 2); `sort_values(by='mean')` is modelled as a stable
  sort by the mean.  Statistics are computed in `Rat`; the reported
  standard deviation is the square root of the `variance` field, and the
  text rendering models the two-decimal formatting of the report.
-/

namespace ExitSurvey

/-! ## Column Classifier: the header regex of parse_columns -/

/-- The three bucket names, in the order of the regex alternation
`(Most Beneficial|Neutral|Least Beneficial)`. -/
def cats : List String := ["Most Beneficial", "Neutral", "Least Beneficial"]

/-- The literal ` - Ranks - ` anchor of the header pattern. -/
def anchorLit : List Char := (" - Ranks - ").data

/-- The literal ` - ` separator between the category group and the course group. -/
def sepLit : List Char := (" - ").data

/-- The literal ` - Rank` tail of the header pattern. -/
def rankLit : List Char := (" - Rank").data

/-- Whether a character sequence contains a newline; `.` in the Python
pattern (no `re.DOTALL`) matches every character except `'\n'`. -/
def hasNl (l : List Char) : Bool := l.any (fun ch => ch == '\n')

/-- One candidate split point `m` for the greedy course group: the first
`m` characters would be the course (so they may not contain a newline) and
the rest must start with the literal ` - Rank`. -/
def courseOk (r2 : List Char) (m : Nat) : Bool :=
  !(hasNl (r2.take m)) && rankLit.isPrefixOf (r2.drop m)

/-- Greedy match of the `(.*) - Rank` tail of the pattern against `r2`:
the largest feasible split point wins, i.e. the course group extends to the
last ` - Rank` occurrence reachable without crossing a newline.  Returns
the captured course characters. -/
def tryCourse (r2 : List Char) : Option (List Char) :=
  ((((List.range (r2.length + 1)).reverse).filter (courseOk r2)).head?).map
    (fun m => r2.take m)

/-- Attempt to match ` - Ranks - <category> - <course> - Rank` with the
anchor placed exactly at the start of `r`.  The category alternatives are
tried in the order of the regex alternation (their first letters differ,
so at most one can match).  Returns the captured (category, course). -/
def tryAt (r : List Char) : Option (String × String) :=
  if anchorLit.isPrefixOf r then
    match cats.find? (fun k => k.data.isPrefixOf (r.drop anchorLit.length)) with
    | some k =>
      let r1 := (r.drop anchorLit.length).drop k.data.length
      if sepLit.isPrefixOf r1 then
        (tryCourse (r1.drop sepLit.length)).map (fun c => (k, String.mk c))
      else none
    | none => none
  else none

/-- All positions of `s` at which the anchored part of the pattern matches. -/
def feasible (s : List Char) : List Nat :=
  (List.range (s.length + 1)).filter (fun j => (tryAt (s.drop j)).isSome)

/-- Whether the leading greedy `.*` can stretch from the segment of
position `j0` up to position `j` (no newline in between). -/
def noNlBetween (s : List Char) (j0 j : Nat) : Bool :=
  !(hasNl ((s.drop j0).take (j - j0)))

/-- `re.search` of the header pattern over `s`: the match starts at the
leftmost feasible position; the leading greedy `.*` then pushes the anchor
to the last feasible position reachable without crossing a newline. -/
def pysearch (s : List Char) : Option (String × String) :=
  match feasible s with
  | [] => none
  | j0 :: rest =>
    ((((j0 :: rest)).filter (noNlBetween s j0)).getLast?).bind
      (fun j => tryAt (s.drop j))

/-- Python's `str.strip()`: remove leading and trailing whitespace. -/
def trimList (l : List Char) : List Char :=
  ((l.dropWhile Char.isWhitespace).reverse.dropWhile Char.isWhitespace).reverse

/-- `parse_columns`: map each column header that the pattern matches to its
(header, category, stripped course) triple, in column order. -/
def parse_columns (cols : List String) : List (String × String × String) :=
  cols.filterMap (fun col =>
    (pysearch col.data).map (fun kc => (col, kc.1, String.mk (trimList kc.2.data))))

/-! ## Rows, respondents and the Rank Flattener -/

/-- A spreadsheet cell: `none` models a missing value (`NaN`), rejected by
the `pd.notna` test in `calculate_rankings`. -/
abbrev Cell := Option Int

/-- A respondent row: the labelled cells, in column order. -/
abbrev Row := List (String × Cell)

/-- `row.get(lbl)`: the cell under a label if the label exists in the row. -/
def rowGet (r : Row) (lbl : String) : Option Cell :=
  (r.find? (fun p => p.1 == lbl)).map (fun p => p.2)

/-- `row[col]` followed by the `pd.notna` test: the numeric value of a cell
when it is present and non-missing. -/
def rowVal (r : Row) (col : String) : Option Int := (rowGet r col).join

/-- The respondent identifier: either the content of the `Response ID`
cell, or the positional row index (the `idx` of `df.iterrows()`). -/
inductive Sid where
  | respId (v : Cell)
  | rowIndex (i : Nat)
deriving DecidableEq

/-- `row.get('Response ID', idx)`: the `Response ID` cell when that label
is present in the row, the positional index otherwise. -/
def student_id (r : Row) (idx : Nat) : Sid :=
  match rowGet r "Response ID" with
  | some v => .respId v
  | none => .rowIndex idx

/-- One long-form Global Rank Record emitted by the flattener. -/
structure Record where
  student : Sid
  course : String
  globalRank : Nat
deriving DecidableEq

/-- The bucket of one category for one respondent: the (course, raw rank)
pairs of the columns of that category whose cell is non-missing, in column
encounter order (the iteration order of `col_map.items()`). -/
def bucket (colMap : List (String × String × String)) (row : Row) (cat : String) :
    List (String × Int) :=
  colMap.filterMap (fun e =>
    if e.2.1 = cat then (rowVal row e.1).map (fun v => (e.2.2, v)) else none)

/-- Stable insertion by key: the new element is placed after every element
with a strictly smaller key and before every element with an equal or
larger key. -/
def insertKey {α κ : Type} (key : α → κ) [LinearOrder κ] (e : α) :
    List α → List α
  | [] => [e]
  | x :: xs => if key x < key e then x :: insertKey key e xs else e :: x :: xs

/-- Stable ascending sort by key, modelling Python's stable `list.sort`
and pandas' key-sorted groupby / stable ordering by mean: a stable
ascending sort is uniquely determined, so insertion sort is a faithful
model of it. -/
def insSortKey {α κ : Type} (key : α → κ) [LinearOrder κ] : List α → List α
  | [] => []
  | e :: rest => insertKey key e (insSortKey key rest)

/-- `bucket.sort(key=lambda x: x[1])`: stable ascending sort by raw rank. -/
def sortBucket (l : List (String × Int)) : List (String × Int) :=
  insSortKey (fun x => x.2) l

/-- The `for course, _ in bucket` loops with the running `current_rank`
counter: emit one record per entry, with consecutive ranks from `k`. -/
def assignRanks (sid : Sid) : Nat → List (String × Int) → List Record
  | _, [] => []
  | k, e :: rest => ⟨sid, e.1, k⟩ :: assignRanks sid (k + 1) rest

/-- The sorted Most Beneficial bucket of a respondent. -/
def mbBucket (colMap : List (String × String × String)) (row : Row) :
    List (String × Int) :=
  sortBucket (bucket colMap row "Most Beneficial")

/-- The sorted Neutral bucket of a respondent. -/
def neBucket (colMap : List (String × String × String)) (row : Row) :
    List (String × Int) :=
  sortBucket (bucket colMap row "Neutral")

/-- The sorted Least Beneficial bucket of a respondent. -/
def lbBucket (colMap : List (String × String × String)) (row : Row) :
    List (String × Int) :=
  sortBucket (bucket colMap row "Least Beneficial")

/-- The records of the Most Beneficial loop; `current_rank` starts at 1. -/
def mbRecords (colMap : List (String × String × String)) (sid : Sid) (row : Row) :
    List Record :=
  assignRanks sid 1 (mbBucket colMap row)

/-- The records of the Neutral loop; `current_rank` has advanced past the
Most Beneficial bucket. -/
def neRecords (colMap : List (String × String × String)) (sid : Sid) (row : Row) :
    List Record :=
  assignRanks sid (1 + (mbBucket colMap row).length) (neBucket colMap row)

/-- The records of the Least Beneficial loop; `current_rank` has advanced
past the first two buckets. -/
def lbRecords (colMap : List (String × String × String)) (sid : Sid) (row : Row) :
    List Record :=
  assignRanks sid (1 + (mbBucket colMap row).length + (neBucket colMap row).length)
    (lbBucket colMap row)

/-- All records of one respondent row: the three bucket loops in the fixed
priority order Most Beneficial, Neutral, Least Beneficial. -/
def calcRow (colMap : List (String × String × String)) (sid : Sid) (row : Row) :
    List Record :=
  mbRecords colMap sid row ++ neRecords colMap sid row ++ lbRecords colMap sid row

/-- The `df.iterrows()` loop with its running positional index. -/
def calcRows (colMap : List (String × String × String)) :
    Nat → List Row → List Record
  | _, [] => []
  | idx, row :: rest =>
    calcRow colMap (student_id row idx) row ++ calcRows colMap (idx + 1) rest

/-- The raw response table: headers and respondent rows. -/
structure DataFrame where
  cols : List String
  rows : List Row
deriving DecidableEq

/-- `calculate_rankings(df, col_map)`: the long-form record table. -/
def calculate_rankings (df : DataFrame) (colMap : List (String × String × String)) :
    List Record :=
  calcRows colMap 0 df.rows

/-! ## Aggregation and reporting (main) -/

/-- The group keys of `groupby('Course')`: the distinct course names,
sorted ascending (pandas groupby default `sort=True`). -/
def groupKeys (records : List Record) : List String :=
  insSortKey (fun c => c) ((records.map (fun r => r.course)).dedup)

/-- The global ranks of one course's group, in original record order. -/
def ranksOf (records : List Record) (c : String) : List Nat :=
  (records.filter (fun r => r.course == c)).map (fun r => r.globalRank)

/-- The mean of a group of global ranks. -/
def meanOf (l : List Nat) : Rat :=
  ((l.map (fun x => (x : Rat))).sum) / (l.length : Rat)

/-- The sample variance (`ddof=1`) of a group of global ranks; `none`
models the `NaN` that pandas `std` reports when the count is below 2.  The
reported standard deviation is its square root. -/
def sampleVar (l : List Nat) : Option Rat :=
  if l.length < 2 then none
  else some (((l.map (fun x => ((x : Rat) - meanOf l) ^ 2)).sum) / (((l.length - 1 : Nat)) : Rat))

/-- The reported Std Dev as a real number: the square root of the sample
variance (`none` = `NaN`). -/
noncomputable def stdDev (v : Option Rat) : Option Real :=
  v.map (fun q => Real.sqrt (q : Real))

/-- One row of the per-course summary table (`Average Rank`, `N`, and the
square of `Std Dev`). -/
structure CourseStat where
  course : String
  avgRank : Rat
  n : Nat
  variance : Option Rat
deriving DecidableEq

/-- The aggregation of one course's group: mean, count, sample variance. -/
def statsFor (records : List Record) (c : String) : CourseStat :=
  ⟨c, meanOf (ranksOf records c), (ranksOf records c).length, sampleVar (ranksOf records c)⟩

/-- `groupby('Course')['Global_Rank'].agg(['mean', 'count', 'std'])`:
one summary row per distinct course, in sorted key order. -/
def course_stats (records : List Record) : List CourseStat :=
  (groupKeys records).map (statsFor records)

/-- `course_stats.sort_values(by='mean')`: the summary ordered ascending
by mean.  pandas' default sort kind (`quicksort`) is documented as not
stable, so the program does not guarantee any particular order among tied
means once the summary exceeds numpy's small-array insertion-sort
fallback; this model fixes ties to the stable group order (the order that
fallback yields on small summaries).  `main` depends on this definition
only as one deterministic ordering. -/
def sortedStats (records : List Record) : List CourseStat :=
  insSortKey (fun s => s.avgRank) (course_stats records)

/-- Fixed two-decimal rendering of a rational (the `%.2f` float format of
the report, with rounding to the nearest hundredth). -/
def fmt2 (q : Rat) : String :=
  let c : Int := round (q * 100)
  let n : Nat := c.natAbs
  (if c < 0 then "-" else "") ++ toString (n / 100) ++ "." ++
    (if n % 100 < 10 then "0" else "") ++ toString (n % 100)

/-- Decimal approximation of the square root used when rendering Std Dev
(two decimal places, as the float `%.2f` rendering of the sqrt). -/
def ratSqrt2 (q : Rat) : Rat := ((Nat.sqrt ((q * 10000).floor.toNat) : Nat) : Rat) / 100

/-- Rendering of the Std Dev column: `NaN` for an undefined deviation. -/
def stdText (v : Option Rat) : String :=
  match v with
  | none => "NaN"
  | some q => fmt2 (ratSqrt2 q)

/-- One rendered line of the summary table (column alignment of
`to_string` abstracted to single spaces). -/
def statLine (s : CourseStat) : String :=
  s.course ++ " " ++ fmt2 s.avgRank ++ " " ++ toString s.n ++ " " ++ stdText s.variance

/-- The text report written to `outputs/ranking.txt`: the fixed banner
(the title line and a rule of 64 equals signs) followed by the rendered
summary table. -/
def reportText (stats : List CourseStat) : String :=
  "Course Ranking (Based on Average Global Rank - Lower is Better)\n" ++
  String.mk (List.replicate 64 '=') ++ "\n\n" ++
  String.intercalate "\n" (stats.map statLine)

/-- The observable outcome of one run of `main`: one of the three early
exits (each prints its message and writes neither the report nor the
chart), or a completed run carrying the report text and the chart bars. -/
inductive RunOutcome where
  | errFileNotFound
  | errNoRankingColumns
  | errNoRankings
  | done (report : String) (chart : List (String × Rat))
deriving DecidableEq

/-- The user-facing message printed on each early exit. -/
def errMessage : RunOutcome → Option String
  | .errFileNotFound => some "Error: data/data.xlsx not found."
  | .errNoRankingColumns => some "No ranking columns found."
  | .errNoRankings => some "No rankings could be calculated."
  | .done _ _ => none

/-- `main()`: the input is `none` when `data/data.xlsx` is absent (the
caught `FileNotFoundError`), otherwise the loaded table. -/
def main (input : Option DataFrame) : RunOutcome :=
  match input with
  | none => .errFileNotFound
  | some df =>
    let colMap := parse_columns df.cols
    if colMap.isEmpty then .errNoRankingColumns
    else
      let rankings := calculate_rankings df colMap
      if rankings.isEmpty then .errNoRankings
      else
        let stats := sortedStats rankings
        .done (reportText stats) (stats.map (fun s => (s.course, s.avgRank)))

/-! ## Spec-side definitions for the Column Classifier claim -/

/-- Modelled from the spec: the acceptance condition exactly as claim C3
states it — the header decomposes as
`<any prefix> - Ranks - <category> - <course> - Rank` (the pattern
covering the whole header), with the category one of the three bucket
names and the course non-empty after trimming. -/
def specPatStrict (h : String) : Bool :=
  (List.range (h.data.length + 1)).any (fun j =>
    let r0 := h.data.drop j
    anchorLit.isPrefixOf r0 &&
      cats.any (fun k =>
        let r1 := r0.drop anchorLit.length
        k.data.isPrefixOf r1 &&
          (let r2 := r1.drop k.data.length
           sepLit.isPrefixOf r2 &&
             (let r3 := r2.drop sepLit.length
              decide (rankLit.length ≤ r3.length) && rankLit.isSuffixOf r3 &&
                decide (trimList (r3.take (r3.length - rankLit.length)) ≠ [])))))

/-- The condition the classifier actually accepts: the header contains an
occurrence of ` - Ranks - <category> - <course> - Rank` with the category
one of the three bucket names and the course any newline-free (possibly
empty) character sequence; text before and after the occurrence is
unconstrained. -/
def LoosePattern (s : List Char) : Prop :=
  ∃ (p c suf : List Char) (k : String), k ∈ cats ∧ (¬ ('\n' ∈ c)) ∧
    s = p ++ anchorLit ++ k.data ++ sepLit ++ c ++ rankLit ++ suf

/-- The hypothesis that a column map only classifies columns into the
three bucket names — true of every map `parse_columns` produces. -/
abbrev validCats (colMap : List (String × String × String)) : Prop :=
  ∀ e ∈ colMap,
    e.2.1 = "Most Beneficial" ∨ e.2.1 = "Neutral" ∨ e.2.1 = "Least Beneficial"

/-- The number of non-missing ranking entries of a respondent row. -/
def presentCount (colMap : List (String × String × String)) (row : Row) : Nat :=
  List.countP (fun e => (rowVal row e.1).isSome) colMap

/-! ## Concrete tables used to instantiate the theorems -/

/-- The two-respondent end-to-end scenario of the spec: respondent A puts
Course X in Most Beneficial and Course Y in Neutral, respondent B puts
Course Y in Most Beneficial and Course X in Least Beneficial. -/
def exampleDF : DataFrame :=
  ⟨["Q - Ranks - Most Beneficial - Course X - Rank",
    "Q - Ranks - Neutral - Course Y - Rank",
    "Q - Ranks - Most Beneficial - Course Y - Rank",
    "Q - Ranks - Least Beneficial - Course X - Rank"],
   [[("Q - Ranks - Most Beneficial - Course X - Rank", some 1),
     ("Q - Ranks - Neutral - Course Y - Rank", some 1)],
    [("Q - Ranks - Most Beneficial - Course Y - Rank", some 1),
     ("Q - Ranks - Least Beneficial - Course X - Rank", some 1)]]⟩

/-- Records of a single course carrying the global ranks [1, 2, 3]. -/
def recs123 : List Record :=
  [⟨Sid.rowIndex 0, "CourseA", 1⟩, ⟨Sid.rowIndex 1, "CourseA", 2⟩,
   ⟨Sid.rowIndex 2, "CourseA", 3⟩]

/-- Seventeen course names, enough that the tied summary below exceeds
the small-array cutoff under which numpy's default sort falls back to a
stable insertion sort. -/
def c5Courses : List String :=
  ["C01", "C02", "C03", "C04", "C05", "C06", "C07", "C08", "C09", "C10",
   "C11", "C12", "C13", "C14", "C15", "C16", "C17"]

/-- A Most Beneficial ranking header for one course. -/
def mbHeader (c : String) : String :=
  "Q - Ranks - Most Beneficial - " ++ c ++ " - Rank"

/-- A table whose summary ties every course: respondent A ranks the 17
courses 1..17 and respondent B ranks them 17..1, so every course's mean
global rank is 9 and the order of the whole summary is decided by the
tie handling of `sort_values` alone. -/
def df17 : DataFrame :=
  ⟨c5Courses.map mbHeader,
   [(c5Courses.enum).map (fun p => (mbHeader p.2, some ((p.1 : Int) + 1))),
    (c5Courses.enum).map (fun p => (mbHeader p.2, some (17 - (p.1 : Int))))]⟩

/-- A table none of whose headers is a ranking column. -/
def dfNoRankCols : DataFrame := ⟨["foo", "Response ID"], [[("foo", some 1)]]⟩

/-- A table with a ranking column whose only value is missing. -/
def dfAllMissing : DataFrame :=
  ⟨["A - Ranks - Neutral - C - Rank"], [[("A - Ranks - Neutral - C - Rank", none)]]⟩

/-- A second, separately written copy of the same table content. -/
def dfAllMissingCopy : DataFrame :=
  ⟨["A - Ranks - Neutral - C - Rank"], [[("A - Ranks - Neutral - C - Rank", none)]]⟩

/-- A table with a `Response ID` column next to one ranking column. -/
def dfWithId : DataFrame :=
  ⟨["Response ID", "A - Ranks - Neutral - C - Rank"],
   [[("Response ID", some 7), ("A - Ranks - Neutral - C - Rank", some 1)]]⟩

/-! ## Lemmas about the stable insertion sort -/

section SortLemmas

variable {α κ : Type} (key : α → κ) [LinearOrder κ]

lemma length_insertKey (e : α) (l : List α) :
    (insertKey key e l).length = l.length + 1 := by
  induction l with
  | nil => rfl
  | cons x xs ih =>
    simp only [insertKey]
    split <;> simp [ih]

lemma length_insSortKey (l : List α) : (insSortKey key l).length = l.length := by
  induction l with
  | nil => rfl
  | cons e rest ih => simp [insSortKey, length_insertKey, ih]

lemma countP_insertKey (p : α → Bool) (e : α) (l : List α) :
    List.countP p (insertKey key e l) =
      List.countP p l + (if p e then 1 else 0) := by
  induction l with
  | nil => simp [insertKey, List.countP_cons]
  | cons x xs ih =>
    simp only [insertKey]
    split <;> simp only [List.countP_cons, ih] <;> omega

lemma countP_insSortKey (p : α → Bool) (l : List α) :
    List.countP p (insSortKey key l) = List.countP p l := by
  induction l with
  | nil => rfl
  | cons e rest ih => simp [insSortKey, countP_insertKey, ih, List.countP_cons]

lemma perm_insertKey (e : α) (l : List α) : List.Perm (insertKey key e l) (e :: l) := by
  induction l with
  | nil => exact List.Perm.refl _
  | cons x xs ih =>
    simp only [insertKey]
    split
    · exact (ih.cons x).trans (List.Perm.swap e x xs)
    · exact List.Perm.refl _

lemma perm_insSortKey (l : List α) : List.Perm (insSortKey key l) l := by
  induction l with
  | nil => exact List.Perm.refl _
  | cons e rest ih => exact (perm_insertKey key e _).trans (ih.cons e)

lemma mem_insertKey {a e : α} {l : List α} :
    a ∈ insertKey key e l ↔ a = e ∨ a ∈ l := by
  rw [(perm_insertKey key e l).mem_iff, List.mem_cons]

lemma pairwise_insertKey (e : α) {l : List α}
    (h : l.Pairwise (fun a b => key a ≤ key b)) :
    (insertKey key e l).Pairwise (fun a b => key a ≤ key b) := by
  induction l with
  | nil => simp [insertKey]
  | cons x xs ih =>
    rw [List.pairwise_cons] at h
    obtain ⟨hx, hxs⟩ := h
    simp only [insertKey]
    split
    · rename_i hlt
      rw [List.pairwise_cons]
      refine ⟨fun a ha => ?_, ih hxs⟩
      rcases (mem_insertKey key).mp ha with rfl | ha'
      · exact le_of_lt hlt
      · exact hx a ha'
    · rename_i hge
      rw [not_lt] at hge
      rw [List.pairwise_cons]
      refine ⟨fun a ha => ?_, List.pairwise_cons.mpr ⟨hx, hxs⟩⟩
      rcases List.mem_cons.mp ha with rfl | ha'
      · exact hge
      · exact le_trans hge (hx a ha')

lemma pairwise_insSortKey (l : List α) :
    (insSortKey key l).Pairwise (fun a b => key a ≤ key b) := by
  induction l with
  | nil => simp [insSortKey]
  | cons e rest ih => exact pairwise_insertKey key e ih

lemma filter_insertKey (e : α) (l : List α) (v : κ) :
    (insertKey key e l).filter (fun a => decide (key a = v)) =
      if key e = v then e :: l.filter (fun a => decide (key a = v))
      else l.filter (fun a => decide (key a = v)) := by
  induction l with
  | nil => by_cases hev : key e = v <;> simp [insertKey, hev]
  | cons x xs ih =>
    simp only [insertKey]
    split
    · rename_i hlt
      by_cases hev : key e = v
      · have hxv : ¬ (key x = v) := fun hx => (ne_of_lt hlt) (hx.trans hev.symm)
        simp [List.filter_cons, hxv, hev, ih]
      · by_cases hxv : key x = v <;> simp [List.filter_cons, hxv, hev, ih]
    · by_cases hev : key e = v <;> simp [List.filter_cons, hev]

lemma filter_insSortKey (l : List α) (v : κ) :
    (insSortKey key l).filter (fun a => decide (key a = v)) =
      l.filter (fun a => decide (key a = v)) := by
  induction l with
  | nil => rfl
  | cons e rest ih =>
    simp only [insSortKey, filter_insertKey, ih, List.filter_cons]
    by_cases hev : key e = v <;> simp [hev]

end SortLemmas

/-! ## Lemmas about the flattener -/

lemma assignRanks_map_rank (sid : Sid) (k : Nat) (l : List (String × Int)) :
    (assignRanks sid k l).map (fun r => r.globalRank) = List.range' k l.length := by
  induction l generalizing k with
  | nil => rfl
  | cons e rest ih => simp [assignRanks, List.range'_succ, ih]

lemma assignRanks_student {sid : Sid} {k : Nat} {l : List (String × Int)} {r : Record}
    (h : r ∈ assignRanks sid k l) : r.student = sid := by
  induction l generalizing k with
  | nil => simp [assignRanks] at h
  | cons e rest ih =>
    simp only [assignRanks, List.mem_cons] at h
    rcases h with rfl | h
    · rfl
    · exact ih h

lemma assignRanks_rank_bounds {sid : Sid} {k : Nat} {l : List (String × Int)} {r : Record}
    (h : r ∈ assignRanks sid k l) :
    k ≤ r.globalRank ∧ r.globalRank < k + l.length := by
  induction l generalizing k with
  | nil => simp [assignRanks] at h
  | cons e rest ih =>
    simp only [assignRanks, List.mem_cons] at h
    rcases h with rfl | h
    · simp
    · have := ih h
      constructor
      · omega
      · simpa [Nat.add_comm, Nat.add_left_comm] using this.2.trans_le (by omega)

lemma assignRanks_countP_course (p : String → Bool) (sid : Sid) (k : Nat)
    (l : List (String × Int)) :
    List.countP (fun r => p r.course) (assignRanks sid k l) =
      List.countP (fun x => p x.1) l := by
  induction l generalizing k with
  | nil => rfl
  | cons e rest ih => simp [assignRanks, List.countP_cons, ih]

lemma bucket_cons_ne (e : String × String × String)
    (rest : List (String × String × String)) (row : Row) (cat : String)
    (h : ¬ (e.2.1 = cat)) :
    bucket (e :: rest) row cat = bucket rest row cat := by
  simp only [bucket, List.filterMap_cons, if_neg h]

lemma bucket_cons_none (e : String × String × String)
    (rest : List (String × String × String)) (row : Row) (cat : String)
    (h : e.2.1 = cat) (hval : rowVal row e.1 = none) :
    bucket (e :: rest) row cat = bucket rest row cat := by
  simp only [bucket, List.filterMap_cons, if_pos h, hval, Option.map_none']

lemma bucket_cons_some (e : String × String × String)
    (rest : List (String × String × String)) (row : Row) (cat : String) (v : Int)
    (h : e.2.1 = cat) (hval : rowVal row e.1 = some v) :
    bucket (e :: rest) row cat = (e.2.2, v) :: bucket rest row cat := by
  simp only [bucket, List.filterMap_cons, if_pos h, hval, Option.map_some']

lemma bucket_count_sum (colMap : List (String × String × String)) (row : Row)
    (p : String → Bool) (hv : validCats colMap) :
    List.countP (fun x => p x.1) (bucket colMap row "Most Beneficial")
      + List.countP (fun x => p x.1) (bucket colMap row "Neutral")
      + List.countP (fun x => p x.1) (bucket colMap row "Least Beneficial")
      = List.countP (fun e => p e.2.2 && (rowVal row e.1).isSome) colMap := by
  induction colMap with
  | nil => rfl
  | cons e rest ih =>
    have he := hv e (List.mem_cons_self e rest)
    have ih' := ih (fun x hx => hv x (List.mem_cons_of_mem e hx))
    simp only [List.countP_cons]
    rcases hval : rowVal row e.1 with _ | v
    · rcases he with h | h | h
      · rw [bucket_cons_none e rest row _ h hval,
          bucket_cons_ne e rest row "Neutral" (by rw [h]; decide),
          bucket_cons_ne e rest row "Least Beneficial" (by rw [h]; decide)]
        simp only [hval, Option.isSome_none, Bool.and_false]
        simpa using ih'
      · rw [bucket_cons_none e rest row _ h hval,
          bucket_cons_ne e rest row "Most Beneficial" (by rw [h]; decide),
          bucket_cons_ne e rest row "Least Beneficial" (by rw [h]; decide)]
        simp only [hval, Option.isSome_none, Bool.and_false]
        simpa using ih'
      · rw [bucket_cons_none e rest row _ h hval,
          bucket_cons_ne e rest row "Most Beneficial" (by rw [h]; decide),
          bucket_cons_ne e rest row "Neutral" (by rw [h]; decide)]
        simp only [hval, Option.isSome_none, Bool.and_false]
        simpa using ih'
    · rcases he with h | h | h
      · rw [bucket_cons_some e rest row _ v h hval,
          bucket_cons_ne e rest row "Neutral" (by rw [h]; decide),
          bucket_cons_ne e rest row "Least Beneficial" (by rw [h]; decide)]
        simp only [hval, Option.isSome_some, Bool.and_true, List.countP_cons]
        by_cases hp : p e.2.2 <;> simp [hp] <;> omega
      · rw [bucket_cons_some e rest row _ v h hval,
          bucket_cons_ne e rest row "Most Beneficial" (by rw [h]; decide),
          bucket_cons_ne e rest row "Least Beneficial" (by rw [h]; decide)]
        simp only [hval, Option.isSome_some, Bool.and_true, List.countP_cons]
        by_cases hp : p e.2.2 <;> simp [hp] <;> omega
      · rw [bucket_cons_some e rest row _ v h hval,
          bucket_cons_ne e rest row "Most Beneficial" (by rw [h]; decide),
          bucket_cons_ne e rest row "Neutral" (by rw [h]; decide)]
        simp only [hval, Option.isSome_some, Bool.and_true, List.countP_cons]
        by_cases hp : p e.2.2 <;> simp [hp] <;> omega

lemma sortBucket_countP (p : (String × Int) → Bool) (l : List (String × Int)) :
    List.countP p (sortBucket l) = List.countP p l :=
  (perm_insSortKey (fun x : String × Int => x.2) l).countP_eq p

lemma length_sortBucket (l : List (String × Int)) :
    (sortBucket l).length = l.length :=
  length_insSortKey (fun x : String × Int => x.2) l

lemma bucket_length_sum (colMap : List (String × String × String)) (row : Row)
    (hv : validCats colMap) :
    (mbBucket colMap row).length + (neBucket colMap row).length
      + (lbBucket colMap row).length = presentCount colMap row := by
  have h := bucket_count_sum colMap row (fun _ => true) hv
  simp only [List.countP_true, Bool.true_and] at h
  simpa [mbBucket, neBucket, lbBucket, length_sortBucket, presentCount] using h

lemma calcRow_map_rank (colMap : List (String × String × String)) (sid : Sid)
    (row : Row) (hv : validCats colMap) :
    (calcRow colMap sid row).map (fun r => r.globalRank) =
      List.range' 1 (presentCount colMap row) := by
  have hlen := bucket_length_sum colMap row hv
  simp only [calcRow, mbRecords, neRecords, lbRecords, List.map_append,
    assignRanks_map_rank]
  have h1 : List.range' 1 (mbBucket colMap row).length
      ++ List.range' (1 + (mbBucket colMap row).length) (neBucket colMap row).length
      = List.range' 1 ((neBucket colMap row).length + (mbBucket colMap row).length) := by
    have := List.range'_append 1 (mbBucket colMap row).length
      (neBucket colMap row).length 1
    simpa [Nat.one_mul, Nat.add_comm] using this
  rw [List.append_assoc, ← List.append_assoc, h1]
  have h2 : List.range' 1
        ((neBucket colMap row).length + (mbBucket colMap row).length)
      ++ List.range' (1 + (mbBucket colMap row).length + (neBucket colMap row).length)
        (lbBucket colMap row).length
      = List.range' 1 (presentCount colMap row) := by
    have := List.range'_append 1
      ((neBucket colMap row).length + (mbBucket colMap row).length)
      (lbBucket colMap row).length 1
    rw [show 1 + 1 * ((neBucket colMap row).length + (mbBucket colMap row).length)
        = 1 + (mbBucket colMap row).length + (neBucket colMap row).length by omega] at this
    rw [this, show (lbBucket colMap row).length
        + ((neBucket colMap row).length + (mbBucket colMap row).length)
        = presentCount colMap row by omega]
  rw [h2]

/-! ## Claim C1: per-respondent ranks are exactly 1..K -/

/-- C1: for every respondent row, the global ranks assigned by the rank
flattener are exactly the consecutive integers `1, ..., K` in order (hence
as a multiset: no duplicates, no gaps), where `K` is the number of ranking
columns whose value for that row is non-missing; in particular a
respondent with zero non-missing ranking entries contributes no records. -/
theorem c1_rank_permutation (colMap : List (String × String × String))
    (sid : Sid) (row : Row) (hv : validCats colMap) :
    (calcRow colMap sid row).map (fun r => r.globalRank) =
        List.range' 1 (presentCount colMap row)
      ∧ (presentCount colMap row = 0 → calcRow colMap sid row = []) := by
  refine ⟨calcRow_map_rank colMap sid row hv, fun h0 => ?_⟩
  have hm := calcRow_map_rank colMap sid row hv
  rw [h0] at hm
  simpa using List.map_eq_nil_iff.mp hm

/-- Witness for C1 at a concrete column map and row: two of the three
entries are non-missing and the assigned ranks are exactly [1, 2]. -/
theorem c1_rank_permutation_witness :
    validCats [("c1", "Neutral", "A"), ("c2", "Most Beneficial", "B"), ("c3", "Neutral", "D")]
      ∧ (calcRow [("c1", "Neutral", "A"), ("c2", "Most Beneficial", "B"), ("c3", "Neutral", "D")]
          (Sid.rowIndex 0) [("c1", some 2), ("c2", some 1), ("c3", none)]).map
            (fun r => r.globalRank)
        = List.range' 1 (presentCount
            [("c1", "Neutral", "A"), ("c2", "Most Beneficial", "B"), ("c3", "Neutral", "D")]
            [("c1", some 2), ("c2", some 1), ("c3", none)]) :=
  ⟨by decide,
    (c1_rank_permutation _ (Sid.rowIndex 0) _ (by decide)).1⟩

/-! ## Claim C2: bucket priority order -/

/-- C2: for every respondent row, every record of the Most Beneficial loop
receives a strictly smaller global rank than every record of the Neutral
loop, and every Neutral record a strictly smaller global rank than every
Least Beneficial record (and hence Most Beneficial < Least Beneficial). -/
theorem c2_bucket_priority (colMap : List (String × String × String))
    (sid : Sid) (row : Row) :
    (∀ r ∈ mbRecords colMap sid row, ∀ r2 ∈ neRecords colMap sid row,
        r.globalRank < r2.globalRank)
      ∧ (∀ r2 ∈ neRecords colMap sid row, ∀ r3 ∈ lbRecords colMap sid row,
        r2.globalRank < r3.globalRank)
      ∧ (∀ r ∈ mbRecords colMap sid row, ∀ r3 ∈ lbRecords colMap sid row,
        r.globalRank < r3.globalRank) := by
  refine ⟨fun r hr r2 hr2 => ?_, fun r2 hr2 r3 hr3 => ?_, fun r hr r3 hr3 => ?_⟩
  · have h1 := assignRanks_rank_bounds hr
    have h2 := assignRanks_rank_bounds hr2
    omega
  · have h1 := assignRanks_rank_bounds hr2
    have h2 := assignRanks_rank_bounds hr3
    omega
  · have h1 := assignRanks_rank_bounds hr
    have h2 := assignRanks_rank_bounds hr3
    omega

/-- Witness for C2 at a concrete row with one entry in each bucket:
ranks are Most Beneficial 1 < Neutral 2 < Least Beneficial 3. -/
theorem c2_bucket_priority_witness :
    (⟨Sid.rowIndex 0, "B", 1⟩ : Record) ∈ mbRecords
        [("c1", "Neutral", "A"), ("c2", "Most Beneficial", "B"), ("c3", "Least Beneficial", "D")]
        (Sid.rowIndex 0) [("c1", some 1), ("c2", some 1), ("c3", some 1)]
      ∧ (⟨Sid.rowIndex 0, "A", 2⟩ : Record) ∈ neRecords
        [("c1", "Neutral", "A"), ("c2", "Most Beneficial", "B"), ("c3", "Least Beneficial", "D")]
        (Sid.rowIndex 0) [("c1", some 1), ("c2", some 1), ("c3", some 1)]
      ∧ (1 : Nat) < 2 :=
  ⟨by decide, by decide, by
    have h := (c2_bucket_priority
      [("c1", "Neutral", "A"), ("c2", "Most Beneficial", "B"), ("c3", "Least Beneficial", "D")]
      (Sid.rowIndex 0) [("c1", some 1), ("c2", some 1), ("c3", some 1)]).1
      ⟨Sid.rowIndex 0, "B", 1⟩ (by decide) ⟨Sid.rowIndex 0, "A", 2⟩ (by decide)
    exact h⟩

/-! ## Claim C4: stable ascending sort within each bucket -/

/-- C4: within each of a respondent's buckets the entries are rearranged
into ascending raw-rank order by a stable sort: the sorted bucket is a
permutation of the encounter-order bucket, its raw ranks are pairwise
non-decreasing, and for every raw-rank value the entries carrying that
value appear in exactly their original column encounter order. -/
theorem c4_stable_bucket_sort (colMap : List (String × String × String))
    (row : Row) (cat : String) :
    (sortBucket (bucket colMap row cat)).Pairwise
        (fun a b : String × Int => a.2 ≤ b.2)
      ∧ List.Perm (sortBucket (bucket colMap row cat)) (bucket colMap row cat)
      ∧ ∀ v : Int,
        (sortBucket (bucket colMap row cat)).filter
            (fun a : String × Int => decide (a.2 = v)) =
          (bucket colMap row cat).filter
            (fun a : String × Int => decide (a.2 = v)) :=
  ⟨pairwise_insSortKey (fun x : String × Int => x.2) _,
    perm_insSortKey (fun x : String × Int => x.2) _,
    fun v => filter_insSortKey (fun x : String × Int => x.2) _ v⟩

/-! ## Claim C10: duplicate course names produce one record per value -/

/-- C10: a respondent row emits one record per non-missing ranking-column
value, so a course named by several matching columns receives one record
per such column (first conjunct: the number of records for course `c`
equals the number of `c`-columns with a non-missing value); the ranks of
one row are pairwise distinct, so those records carry distinct global
ranks (second conjunct); and the aggregation counts one per record, since
a course's group size is exactly its record count (third conjunct). -/
theorem c10_duplicate_course_records (colMap : List (String × String × String))
    (sid : Sid) (row : Row) (c : String) (hv : validCats colMap) :
    List.countP (fun r => r.course == c) (calcRow colMap sid row) =
        List.countP (fun e => (e.2.2 == c) && (rowVal row e.1).isSome) colMap
      ∧ ((calcRow colMap sid row).map (fun r => r.globalRank)).Nodup
      ∧ ∀ records : List Record,
          (ranksOf records c).length = List.countP (fun r => r.course == c) records := by
  refine ⟨?_, ?_, fun records => ?_⟩
  · have h := bucket_count_sum colMap row (fun s => s == c) hv
    have ha : ∀ (k : Nat) (l : List (String × Int)),
        List.countP (fun r => r.course == c) (assignRanks sid k l) =
          List.countP (fun x => x.1 == c) l :=
      fun k l => assignRanks_countP_course (fun s => s == c) sid k l
    have hb : ∀ l : List (String × Int),
        List.countP (fun x => x.1 == c) (sortBucket l) =
          List.countP (fun x => x.1 == c) l :=
      fun l => sortBucket_countP _ l
    simp only [calcRow, mbRecords, neRecords, lbRecords, List.countP_append,
      mbBucket, neBucket, lbBucket]
    rw [ha, ha, ha, hb, hb, hb]
    exact h
  · rw [calcRow_map_rank colMap sid row hv]
    exact List.nodup_range' 1 _
  · simp [ranksOf, List.countP_eq_length_filter]

/-- Witness for C10: the same course name in two Neutral columns with two
non-missing values yields two records and two distinct ranks. -/
theorem c10_duplicate_course_records_witness :
    validCats [("c1", "Neutral", "C"), ("c2", "Neutral", "C")]
      ∧ List.countP (fun r => r.course == "C")
          (calcRow [("c1", "Neutral", "C"), ("c2", "Neutral", "C")] (Sid.rowIndex 0)
            [("c1", some 1), ("c2", some 2)]) =
        List.countP (fun e => (e.2.2 == "C") && (rowVal [("c1", some 1), ("c2", some 2)] e.1).isSome)
          [("c1", "Neutral", "C"), ("c2", "Neutral", "C")] :=
  ⟨by decide,
    (c10_duplicate_course_records [("c1", "Neutral", "C"), ("c2", "Neutral", "C")]
      (Sid.rowIndex 0) [("c1", some 1), ("c2", some 2)] "C" (by decide)).1⟩

/-! ## Claim C5: summary sorted by mean, stable ties -/

/-- C5 (the code at the failing input): on the 17-course table every
course's summary row carries the same mean global rank 9 — so the entire
output order of `sort_values(by='mean')` there is decided by its tie
handling, which the default `kind='quicksort'` leaves unguaranteed for a
summary this large; and on the spec's two-respondent scenario the group
table before sorting is Course X then Course Y, both with mean 1.50 (the
arithmetic half of the claimed scenario). -/
theorem c5_failing_input_tied_means :
    ((course_stats (calculate_rankings df17 (parse_columns df17.cols))).map
        (fun st => st.avgRank) = List.replicate 17 (9 : Rat))
      ∧ ((course_stats (calculate_rankings exampleDF (parse_columns exampleDF.cols))).map
          (fun st => (st.course, st.avgRank)) =
        [("Course X", (3 : Rat) / 2), ("Course Y", (3 : Rat) / 2)]) :=
  ⟨by with_unfolding_all rfl, by with_unfolding_all rfl⟩

/-! ## Claim C6: per-course mean, count, sample standard deviation -/

/-- C6: aggregation groups records by course and reports mean, count and
sample standard deviation per group; the deviation is undefined (NaN)
exactly when the group has fewer than two records; a course whose records
carry global ranks [1, 2, 3] gets mean 2, N = 3 and sample variance 1,
and the reported standard deviation — the square root — equals 1. -/
theorem c6_aggregation :
    (∀ l : List Nat, (sampleVar l = none ↔ l.length < 2))
      ∧ course_stats recs123 = [⟨"CourseA", 2, 3, some 1⟩]
      ∧ stdDev (some 1) = some 1 := by
  refine ⟨fun l => ?_, by with_unfolding_all rfl, ?_⟩
  · unfold sampleVar
    split <;> rename_i h <;> simp [h]
  · unfold stdDev
    simp

/-! ## Claim C7: the three failure modes exit early without outputs -/

/-- C7: each anticipated failure mode — input file absent, no ranking
columns detected, empty long-form table — ends the run on its dedicated
early-exit outcome, which carries its printed message and by construction
neither report nor chart; conversely a run only reaches the report/chart
outcome when no failure mode holds.  The embedded run is a total
function, so no exception escapes on these paths. -/
theorem c7_failure_modes :
    (main none = RunOutcome.errFileNotFound
        ∧ errMessage (main none) = some "Error: data/data.xlsx not found.")
      ∧ (∀ df : DataFrame, parse_columns df.cols = [] →
          main (some df) = RunOutcome.errNoRankingColumns)
      ∧ (∀ df : DataFrame, parse_columns df.cols ≠ [] →
          calculate_rankings df (parse_columns df.cols) = [] →
          main (some df) = RunOutcome.errNoRankings)
      ∧ (∀ (input : Option DataFrame) (report : String) (chart : List (String × Rat)),
          main input = RunOutcome.done report chart →
            ∃ df, input = some df ∧ parse_columns df.cols ≠ [] ∧
              calculate_rankings df (parse_columns df.cols) ≠ []) := by
  refine ⟨⟨rfl, rfl⟩, fun df h => ?_, fun df h1 h2 => ?_, fun input report chart h => ?_⟩
  · simp [main, h]
  · have hne : (parse_columns df.cols).isEmpty = false := by
      simpa [List.isEmpty_iff] using h1
    simp [main, hne, h2]
  · cases input with
    | none => simp [main] at h
    | some df =>
      by_cases h1 : parse_columns df.cols = []
      · simp [main, h1] at h
      · by_cases h2 : calculate_rankings df (parse_columns df.cols) = []
        · have hne : (parse_columns df.cols).isEmpty = false := by
            simpa [List.isEmpty_iff] using h1
          simp [main, hne, h2] at h
        · exact ⟨df, rfl, h1, h2⟩

/-- Witness for C7 at concrete tables: a table with no ranking column
ends on the no-ranking-columns exit, a table whose only ranking value is
missing ends on the empty-rankings exit. -/
theorem c7_failure_modes_witness :
    parse_columns dfNoRankCols.cols = []
      ∧ main (some dfNoRankCols) = RunOutcome.errNoRankingColumns
      ∧ parse_columns dfAllMissing.cols ≠ []
      ∧ calculate_rankings dfAllMissing (parse_columns dfAllMissing.cols) = []
      ∧ main (some dfAllMissing) = RunOutcome.errNoRankings :=
  ⟨by decide, c7_failure_modes.2.1 dfNoRankCols (by decide),
    by decide, by decide,
    c7_failure_modes.2.2.1 dfAllMissing (by decide) (by decide)⟩

/-! ## Claim C8: respondent identifier -/

lemma calcRow_student {colMap : List (String × String × String)} {sid : Sid}
    {row : Row} {r : Record} (h : r ∈ calcRow colMap sid row) : r.student = sid := by
  simp only [calcRow, List.mem_append] at h
  rcases h with (h | h) | h
  · exact assignRanks_student h
  · exact assignRanks_student h
  · exact assignRanks_student h

lemma calcRows_mem {colMap : List (String × String × String)} :
    ∀ {start : Nat} {rows : List Row} {r : Record}, r ∈ calcRows colMap start rows →
      ∃ (j : Nat) (row : Row), rows[j]? = some row ∧
        r ∈ calcRow colMap (student_id row (start + j)) row := by
  intro start rows
  induction rows generalizing start with
  | nil => intro r h; simp [calcRows] at h
  | cons row rest ih =>
    intro r h
    simp only [calcRows, List.mem_append] at h
    rcases h with h | h
    · exact ⟨0, row, by simp, by simpa using h⟩
    · obtain ⟨j, row', hrow, hmem⟩ := ih h
      refine ⟨j + 1, row', by simpa using hrow, ?_⟩
      rwa [show start + (j + 1) = start + 1 + j by omega]

/-- C8: every record the flattener emits for a row carries, as its
respondent identifier, the content of that row's `Response ID` field when
the field is present, and the row's positional index otherwise. -/
theorem c8_respondent_identifier (df : DataFrame)
    (colMap : List (String × String × String)) (r : Record)
    (h : r ∈ calculate_rankings df colMap) :
    ∃ (idx : Nat) (row : Row), df.rows[idx]? = some row ∧
      ((∃ v : Cell, rowGet row "Response ID" = some v ∧ r.student = Sid.respId v)
        ∨ (rowGet row "Response ID" = none ∧ r.student = Sid.rowIndex idx)) := by
  have h0 : r ∈ calcRows colMap 0 df.rows := h
  obtain ⟨j, row, hrow, hmem⟩ := calcRows_mem h0
  refine ⟨j, row, hrow, ?_⟩
  have hs : r.student = student_id row j := by
    have := calcRow_student hmem
    simpa using this
  cases hg : rowGet row "Response ID" with
  | some v => exact Or.inl ⟨v, rfl, by rw [hs]; simp [student_id, hg]⟩
  | none => exact Or.inr ⟨rfl, by rw [hs]; simp [student_id, hg]⟩

/-- Witness for C8: in a table with a `Response ID` column, the emitted
record's identifier is the field value 7, not the row index. -/
theorem c8_respondent_identifier_witness :
    (⟨Sid.respId (some 7), "C", 1⟩ : Record) ∈
        calculate_rankings dfWithId (parse_columns dfWithId.cols)
      ∧ ∃ (idx : Nat) (row : Row), dfWithId.rows[idx]? = some row ∧
          ((∃ v : Cell, rowGet row "Response ID" = some v ∧
              (⟨Sid.respId (some 7), "C", 1⟩ : Record).student = Sid.respId v)
            ∨ (rowGet row "Response ID" = none ∧
              (⟨Sid.respId (some 7), "C", 1⟩ : Record).student = Sid.rowIndex idx)) :=
  ⟨by decide,
    c8_respondent_identifier dfWithId (parse_columns dfWithId.cols) _ (by decide)⟩

/-! ## Claim C9: determinism -/

/-- C9: the run outcome — in particular the text report — is a function
of the input table alone: two runs on tables with identical headers and
identical rows produce identical outcomes byte for byte. -/
theorem c9_deterministic (df₁ df₂ : DataFrame) (hc : df₁.cols = df₂.cols)
    (hr : df₁.rows = df₂.rows) : main (some df₁) = main (some df₂) := by
  cases df₁
  cases df₂
  cases hc
  cases hr
  rfl

/-- Witness for C9 at two separately written copies of the same table. -/
theorem c9_deterministic_witness :
    dfAllMissing.cols = dfAllMissingCopy.cols
      ∧ dfAllMissing.rows = dfAllMissingCopy.rows
      ∧ main (some dfAllMissing) = main (some dfAllMissingCopy) :=
  ⟨rfl, rfl, c9_deterministic dfAllMissing dfAllMissingCopy rfl rfl⟩

/-! ## Claim C3: the Column Classifier's acceptance condition -/

lemma mem_of_head?_eq_some {α : Type} {l : List α} {a : α} (h : l.head? = some a) :
    a ∈ l := by
  cases l with
  | nil => simp at h
  | cons x xs =>
    simp only [List.head?_cons, Option.some.injEq] at h
    rw [← h]
    exact List.mem_cons_self x xs

lemma mem_of_getLast?_eq_some {α : Type} {l : List α} {a : α} (h : l.getLast? = some a) :
    a ∈ l := by
  rw [← List.head?_reverse] at h
  exact List.mem_reverse.mp (mem_of_head?_eq_some h)

lemma hasNl_eq_false_iff {l : List Char} : hasNl l = false ↔ '\n' ∉ l := by
  rw [Bool.eq_false_iff, Ne, hasNl, List.any_eq_true]
  constructor
  · intro h hmem
    exact h ⟨'\n', hmem, by simp⟩
  · rintro h ⟨x, hx, hbeq⟩
    exact h (by rwa [show x = '\n' from by simpa using hbeq] at hx)

lemma cats_mutual : ∀ k1 ∈ cats, ∀ k2 ∈ cats,
    (k1.data.isPrefixOf k2.data || k2.data.isPrefixOf k1.data) = true → k1 = k2 := by
  decide

lemma tryCourse_isSome_iff {r2 : List Char} :
    (tryCourse r2).isSome = true ↔
      ∃ c suf : List Char, ('\n' ∉ c) ∧ r2 = c ++ rankLit ++ suf := by
  constructor
  · intro h
    rw [tryCourse] at h
    rcases hh : (((List.range (r2.length + 1)).reverse).filter (courseOk r2)).head?
      with _ | m
    · rw [hh] at h
      simp at h
    · have hm := mem_of_head?_eq_some hh
      rw [List.mem_filter] at hm
      obtain ⟨-, hok⟩ := hm
      rw [courseOk, Bool.and_eq_true] at hok
      obtain ⟨h1, h2⟩ := hok
      obtain ⟨suf, hsuf⟩ := List.isPrefixOf_iff_prefix.mp h2
      rw [Bool.not_eq_eq_eq_not, Bool.not_true] at h1
      refine ⟨r2.take m, suf, hasNl_eq_false_iff.mp h1, ?_⟩
      rw [List.append_assoc, hsuf, List.take_append_drop]
  · rintro ⟨c, suf, hnl, rfl⟩
    have hok : courseOk (c ++ rankLit ++ suf) c.length = true := by
      rw [courseOk, Bool.and_eq_true]
      constructor
      · rw [Bool.not_eq_eq_eq_not, Bool.not_true, hasNl_eq_false_iff]
        rw [List.append_assoc, List.take_left]
        exact hnl
      · rw [List.append_assoc, List.drop_left]
        exact List.isPrefixOf_iff_prefix.mpr ⟨suf, rfl⟩
    have hmem : c.length ∈ (((List.range ((c ++ rankLit ++ suf).length + 1)).reverse).filter
        (courseOk (c ++ rankLit ++ suf))) := by
      rw [List.mem_filter]
      refine ⟨List.mem_reverse.mpr (List.mem_range.mpr ?_), hok⟩
      simp only [List.length_append]
      omega
    rw [tryCourse]
    rcases hh : (((List.range ((c ++ rankLit ++ suf).length + 1)).reverse).filter
        (courseOk (c ++ rankLit ++ suf))).head? with _ | m
    · rw [List.head?_eq_none_iff] at hh
      rw [hh] at hmem
      simp at hmem
    · rfl

lemma tryAt_isSome_iff {r : List Char} :
    (tryAt r).isSome = true ↔
      ∃ (k : String) (c suf : List Char), k ∈ cats ∧ ('\n' ∉ c) ∧
        r = anchorLit ++ (k.data ++ (sepLit ++ (c ++ (rankLit ++ suf)))) := by
  constructor
  · intro h
    simp only [tryAt] at h
    split at h
    case isFalse => simp at h
    case isTrue hpre =>
      split at h
      case h_2 => simp at h
      case h_1 k heq =>
        split at h
        case isFalse => simp at h
        case isTrue hsep =>
          obtain ⟨t, ht⟩ := List.isPrefixOf_iff_prefix.mp hpre
          have e1 : r.drop anchorLit.length = t := by rw [← ht, List.drop_left]
          rw [e1] at heq hsep h
          have hk := List.find?_some heq
          obtain ⟨t1, ht1⟩ := List.isPrefixOf_iff_prefix.mp hk
          have e2 : t.drop k.data.length = t1 := by rw [← ht1, List.drop_left]
          rw [e2] at hsep h
          obtain ⟨t2, ht2⟩ := List.isPrefixOf_iff_prefix.mp hsep
          have e3 : t1.drop sepLit.length = t2 := by rw [← ht2, List.drop_left]
          rw [e3] at h
          have htc : (tryCourse t2).isSome = true := by
            rcases hx : tryCourse t2 with _ | c
            · rw [hx] at h
              simp at h
            · rfl
          obtain ⟨c, suf, hnl, hx2⟩ := tryCourse_isSome_iff.mp htc
          refine ⟨k, c, suf, List.mem_of_find?_eq_some heq, hnl, ?_⟩
          rw [← ht, ← ht1, ← ht2, hx2, List.append_assoc]
  · rintro ⟨k, c, suf, hk, hnl, rfl⟩
    have hpre : anchorLit.isPrefixOf
        (anchorLit ++ (k.data ++ (sepLit ++ (c ++ (rankLit ++ suf))))) = true :=
      List.isPrefixOf_iff_prefix.mpr ⟨_, rfl⟩
    have e1 : (anchorLit ++ (k.data ++ (sepLit ++ (c ++ (rankLit ++ suf))))).drop
        anchorLit.length = k.data ++ (sepLit ++ (c ++ (rankLit ++ suf))) :=
      List.drop_left _ _
    have hfind : cats.find? (fun k' => k'.data.isPrefixOf
        (k.data ++ (sepLit ++ (c ++ (rankLit ++ suf))))) = some k := by
      rcases hf : cats.find? (fun k' => k'.data.isPrefixOf
          (k.data ++ (sepLit ++ (c ++ (rankLit ++ suf))))) with _ | k'
      · exfalso
        have hsome : (cats.find? (fun k' => k'.data.isPrefixOf
            (k.data ++ (sepLit ++ (c ++ (rankLit ++ suf)))))).isSome = true :=
          List.find?_isSome.mpr ⟨k, hk, List.isPrefixOf_iff_prefix.mpr ⟨_, rfl⟩⟩
        rw [hf] at hsome
        simp at hsome
      · have hp' := List.find?_some hf
        have hmemk' := List.mem_of_find?_eq_some hf
        have hor : (k'.data.isPrefixOf k.data || k.data.isPrefixOf k'.data) = true := by
          have h1 : k'.data <+: k.data ++ (sepLit ++ (c ++ (rankLit ++ suf))) :=
            List.isPrefixOf_iff_prefix.mp hp'
          have h2 : k.data <+: k.data ++ (sepLit ++ (c ++ (rankLit ++ suf))) := ⟨_, rfl⟩
          rw [Bool.or_eq_true]
          rcases List.prefix_or_prefix_of_prefix h1 h2 with ho | ho
          · exact Or.inl (List.isPrefixOf_iff_prefix.mpr ho)
          · exact Or.inr (List.isPrefixOf_iff_prefix.mpr ho)
        rw [cats_mutual k' hmemk' k hk hor] at hf
        exact hf
    have e2 : (k.data ++ (sepLit ++ (c ++ (rankLit ++ suf)))).drop k.data.length
        = sepLit ++ (c ++ (rankLit ++ suf)) := List.drop_left _ _
    have hsep : sepLit.isPrefixOf (sepLit ++ (c ++ (rankLit ++ suf))) = true :=
      List.isPrefixOf_iff_prefix.mpr ⟨_, rfl⟩
    have e3 : (sepLit ++ (c ++ (rankLit ++ suf))).drop sepLit.length
        = c ++ (rankLit ++ suf) := List.drop_left _ _
    have htc : (tryCourse (c ++ (rankLit ++ suf))).isSome = true :=
      tryCourse_isSome_iff.mpr ⟨c, suf, hnl, by rw [List.append_assoc]⟩
    simp only [tryAt, hpre, if_true, e1, hfind, e2, hsep, e3]
    rcases hx : tryCourse (c ++ (rankLit ++ suf)) with _ | cc
    · rw [hx] at htc
      simp at htc
    · rfl

lemma pysearch_isSome_iff {s : List Char} :
    (pysearch s).isSome = true ↔ ∃ j : Nat, (tryAt (s.drop j)).isSome = true := by
  constructor
  · intro h
    rw [pysearch] at h
    rcases hfe : feasible s with _ | ⟨j0, rest⟩
    · rw [hfe] at h
      simp at h
    · rw [hfe] at h
      have h2 : (((j0 :: rest).filter (noNlBetween s j0)).getLast?.bind
          (fun j => tryAt (s.drop j))).isSome = true := h
      rcases hgl : ((j0 :: rest).filter (noNlBetween s j0)).getLast? with _ | j
      · rw [hgl] at h2
        simp at h2
      · rw [hgl] at h2
        exact ⟨j, by simpa using h2⟩
  · rintro ⟨j, hj⟩
    have hjle : j ≤ s.length := by
      by_contra hgt
      rw [List.drop_eq_nil_of_le (by omega)] at hj
      rw [show tryAt [] = none from rfl] at hj
      simp at hj
    have hjmem : j ∈ feasible s :=
      List.mem_filter.mpr ⟨List.mem_range.mpr (by omega), hj⟩
    rcases hfe : feasible s with _ | ⟨j0, rest⟩
    · rw [hfe] at hjmem
      simp at hjmem
    · have hj0 : noNlBetween s j0 j0 = true := by
        simp [noNlBetween, hasNl]
      have hne : (j0 :: rest).filter (noNlBetween s j0) ≠ [] :=
        List.ne_nil_of_mem (List.mem_filter.mpr ⟨List.mem_cons_self j0 rest, hj0⟩)
      rcases hgl : ((j0 :: rest).filter (noNlBetween s j0)).getLast? with _ | j2
      · rw [List.getLast?_eq_none_iff] at hgl
        exact absurd hgl hne
      · have hj2mem : j2 ∈ (j0 :: rest).filter (noNlBetween s j0) :=
          mem_of_getLast?_eq_some hgl
        have hj2feas : j2 ∈ feasible s := by
          rw [hfe]
          exact (List.mem_filter.mp hj2mem).1
        have hj2try : (tryAt (s.drop j2)).isSome = true :=
          (List.mem_filter.mp hj2feas).2
        rw [pysearch, hfe]
        show (((j0 :: rest).filter (noNlBetween s j0)).getLast?.bind
          (fun j => tryAt (s.drop j))).isSome = true
        rw [hgl]
        simpa using hj2try

lemma loosePattern_iff_exists (s : List Char) :
    LoosePattern s ↔ ∃ j : Nat, (tryAt (s.drop j)).isSome = true := by
  constructor
  · rintro ⟨p, c, suf, k, hk, hnl, rfl⟩
    refine ⟨p.length, ?_⟩
    have hd : (p ++ anchorLit ++ k.data ++ sepLit ++ c ++ rankLit ++ suf).drop p.length
        = anchorLit ++ (k.data ++ (sepLit ++ (c ++ (rankLit ++ suf)))) := by
      simp only [List.append_assoc]
      exact List.drop_left _ _
    rw [hd]
    exact tryAt_isSome_iff.mpr ⟨k, c, suf, hk, hnl, rfl⟩
  · rintro ⟨j, hj⟩
    obtain ⟨k, c, suf, hk, hnl, hdec⟩ := tryAt_isSome_iff.mp hj
    refine ⟨s.take j, c, suf, k, hk, hnl, ?_⟩
    conv_lhs => rw [← List.take_append_drop j s, hdec]
    simp [List.append_assoc]

lemma pysearch_isSome_iff_loose {s : List Char} :
    (pysearch s).isSome = true ↔ LoosePattern s :=
  pysearch_isSome_iff.trans (loosePattern_iff_exists s).symm

/-- C3 as stated is false on three concrete headers: the classifier
accepts a header whose course segment is empty after trimming, accepts a
header with trailing text after the ` - Rank` suffix, and rejects a
header of the claimed shape whose course contains a newline. -/
theorem c3_classifier_counterexample :
    parse_columns ["X - Ranks - Neutral -  - Rank"] ≠ []
      ∧ specPatStrict "X - Ranks - Neutral -  - Rank" = false
      ∧ parse_columns ["A - Ranks - Neutral - B - Rankz"] ≠ []
      ∧ specPatStrict "A - Ranks - Neutral - B - Rankz" = false
      ∧ parse_columns ["A - Ranks - Neutral - B\nC - Rank"] = []
      ∧ specPatStrict "A - Ranks - Neutral - B\nC - Rank" = true :=
  ⟨by decide, by decide, by decide, by decide, by decide, by decide⟩

/-- C3 (amended): the Column Classifier accepts a header if and only if
the header contains ` - Ranks - <category> - <course> - Rank` as a
substring, with `<category>` one of the three bucket names and `<course>`
any possibly-empty newline-free segment; text before and after the
occurrence is unconstrained and the stored course is the trimmed capture.
The claim's concrete examples behave as stated, and the course group is
captured greedily up to the final ` - Rank` occurrence. -/
theorem c3_classifier_amended :
    (∀ h : String, (parse_columns [h] ≠ [] ↔ LoosePattern h.data))
      ∧ parse_columns ["Survey1 - Ranks - Most Beneficial - Intro to Systems - Rank"] =
          [("Survey1 - Ranks - Most Beneficial - Intro to Systems - Rank",
            "Most Beneficial", "Intro to Systems")]
      ∧ parse_columns ["X - Ranks - Foo - Bar - Rank"] = []
      ∧ pysearch ("A - Ranks - Neutral - B - Rank - Rank").data =
          some ("Neutral", "B - Rank") := by
  refine ⟨fun h => ?_, by decide, by decide, by decide⟩
  have hiff : parse_columns [h] ≠ [] ↔ (pysearch h.data).isSome = true := by
    rcases hp : pysearch h.data with _ | kc <;> simp [parse_columns, hp]
  exact hiff.trans pysearch_isSome_iff_loose

end ExitSurvey
